import Mathlib

/-!
Verification of the QR fragment-assembly logic of `hermit/qrcode/reader.py`.

Python strings are modelled as lists of characters (`Str`), Python `None`
entries of the slot array as `Option`, and functions that can raise an
exception as `Option`-valued functions where `none` marks the exception.
The external descriptor validator `parse_wshsortedmulti` (from the `buidl`
library, outside this repository) is modelled as an abstract boolean
predicate parameter: `true` means it accepts, `false` means it raises.
-/

/-- Python strings, modelled as lists of characters. -/
abbrev Str := List Char

/-- Python `s.split(" ")` (reader.py lines 20 and 53): split on every single
space character, keeping empty pieces, so that the empty string yields one
empty token and consecutive spaces yield empty tokens in between. -/
def splitSpace : Str → List Str
  | [] => [[]]
  | c :: cs =>
    if c = ' ' then
      [] :: splitSpace cs
    else
      match splitSpace cs with
      | t :: ts => (c :: t) :: ts
      | [] => [[c]]

/-- Python `" ".join(parts)` (reader.py line 69). -/
def joinSpace : List Str → Str
  | [] => []
  | [s] => s
  | s :: rest => s ++ ' ' :: joinSpace rest

/-- Numeric value of a run of decimal digit characters, most significant
first, as computed by Python `int` on a digit-only string. -/
def digitsToNat (ds : Str) : Nat :=
  ds.foldl (fun acc c => 10 * acc + (c.toNat - 48)) 0

/-- Python `int(g)` applied to a group captured by `[0-9]*` (reader.py lines
35, 36, 63, 64): the capture holds only digit characters, and `int` raises
`ValueError` (modelled as `none`) exactly when the capture is empty. -/
def pyIntOfDigits (ds : Str) : Option Nat :=
  if ds.isEmpty then none else some (digitsToNat ds)

/-- Python `re.match("p([0-9]*)of([0-9]*)", s)` (reader.py lines 31 and 55),
returning the two captured groups. The pattern is anchored at the start
only, so trailing characters after the second digit group are ignored; each
`[0-9]*` group takes the maximal (possibly empty) digit run. Backtracking
cannot produce any other first group, because a shorter digit run would
leave a digit where the literal `of` must match. -/
def matchXofY (s : Str) : Option (Str × Str) :=
  match s with
  | 'p' :: rest =>
    match rest.dropWhile Char.isDigit with
    | 'o' :: 'f' :: r2 => some (rest.takeWhile Char.isDigit, r2.takeWhile Char.isDigit)
    | _ => none
  | _ => none

/-- The regex match followed by `int()` on both captures, as performed on the
header token by `_parse_specter_desktop_psbt` (reader.py lines 31 to 36):
`none` when the regex fails or when either capture is empty. -/
def headerNums (t : Str) : Option (Nat × Nat) :=
  match matchXofY t with
  | none => none
  | some (g1, g2) =>
    match pyIntOfDigits g1, pyIntOfDigits g2 with
    | some x, some y => some (x, y)
    | _, _ => none

/-- The dict returned by the two parsers. The keys `x_int` and `y_int` may be
absent: the account-map single-part branch (reader.py line 59) returns a dict
carrying only `payload`. -/
structure SingleQrDict where
  x_int : Option Nat
  y_int : Option Nat
  payload : Str
  deriving DecidableEq

/-- Model of `_parse_specter_desktop_psbt` (reader.py lines 15 to 43):
one token means a single-part payload, two tokens require the `pXofY`
header, any other token count raises `ValueError` (`none`). -/
def parse_specter_desktop_psbt (raw : Str) : Option SingleQrDict :=
  match splitSpace raw with
  | [_] => some ⟨some 1, some 1, raw⟩
  | [xofy, payload] =>
    match headerNums xofy with
    | none => none
    | some (x, y) => some ⟨some x, some y, payload⟩
  | _ => none

/-- Model of `_parse_specter_desktop_accountmap` (reader.py lines 46 to 70):
if the regex does not match the first token, the whole raw string is passed
to the external validator and returned as the payload (with no `x_int` or
`y_int` keys); otherwise the two captures are converted with `int()` and the
remaining tokens are rejoined with single spaces. -/
def parse_specter_desktop_accountmap (validate : Str → Bool) (raw : Str) :
    Option SingleQrDict :=
  let parts := splitSpace raw
  match matchXofY (parts.headD []) with
  | none => if validate raw then some ⟨none, none, raw⟩ else none
  | some (g1, g2) =>
    match pyIntOfDigits g1, pyIntOfDigits g2 with
    | some x, some y => some ⟨some x, some y, joinSpace (parts.drop 1)⟩
    | _, _ => none

/-- The observable outcome of one pass of the accumulation logic in the body
of `read_qr_code` for one parsed dict: the `y_int == 1` immediate return
(reader.py line 151), the fill of an empty slot, the duplicate report
(line 168), or the `None not in qrs_array` break (line 173). -/
inductive SessionEvent where
  | singleDone (p : Str)
  | progressed
  | alreadyFilled
  | complete
  deriving DecidableEq

/-- Python list indexing for an `Int` index: a negative index counts from the
end of the list, and an index out of range on either side is an `IndexError`
(`none`). Returns the resolved array position. -/
def pyIdx (n : Nat) (i : Int) : Option Nat :=
  if 0 ≤ i then
    if i < (n : Int) then some i.toNat else none
  else
    if 0 ≤ (n : Int) + i then some ((n : Int) + i).toNat else none

/-- Python `None not in qrs_array` (reader.py line 173). -/
def allFilled (st : List (Option Str)) : Bool :=
  st.all Option.isSome

/-- The lazy allocation of the slot array on the first multi-part fragment
(reader.py lines 156 to 157): if the array is still empty it becomes a list
of `y` empty slots, otherwise it is left as it is. -/
def ensureSlots (st : List (Option Str)) (y : Nat) : List (Option Str) :=
  if st.isEmpty then List.replicate y none else st

/-- One iteration of the accumulation logic of `read_qr_code` (reader.py
lines 149 to 174) applied to one parsed dict: the `y_int == 1` short
circuit using `get("y_int", 1)`, lazy allocation of the slot array sized by
the fragment's own `y_int`, Python indexing of the array at `x_int - 1`,
the already-filled check, and the completion test, which the source runs
after either branch. `none` models an uncaught exception: `KeyError` for a
missing `x_int` (unreachable for parser outputs) or `IndexError` for an
out-of-range slot index. -/
def absorb (st : List (Option Str)) (d : SingleQrDict) :
    Option (SessionEvent × List (Option Str)) :=
  if d.y_int.getD 1 = 1 then
    some (.singleDone d.payload, st)
  else
    match d.x_int with
    | none => none
    | some x =>
      match pyIdx (ensureSlots st (d.y_int.getD 1)).length ((x : Int) - 1) with
      | none => none
      | some j =>
        match (ensureSlots st (d.y_int.getD 1))[j]? with
        | none => none
        | some (some _) =>
          if allFilled (ensureSlots st (d.y_int.getD 1)) then
            some (.complete, ensureSlots st (d.y_int.getD 1))
          else
            some (.alreadyFilled, ensureSlots st (d.y_int.getD 1))
        | some none =>
          if allFilled ((ensureSlots st (d.y_int.getD 1)).set j (some d.payload)) then
            some (.complete, (ensureSlots st (d.y_int.getD 1)).set j (some d.payload))
          else
            some (.progressed, (ensureSlots st (d.y_int.getD 1)).set j (some d.payload))

/-- Python `"".join(qrs_array)` (reader.py line 182): raises `TypeError`
(`none`) if any entry of the array is `None`, otherwise concatenates the
entries in array order with no separator. -/
def optJoin : List (Option Str) → Option Str
  | [] => some []
  | none :: _ => none
  | some s :: rest => (optJoin rest).map (fun t => s ++ t)

/-- Outcome of feeding a sequence of parsed dicts to one scan session:
`done payload single st` records the first completion (with `single = true`
for the `y_int == 1` short circuit), `pending st` means the sequence ran out
with the session still incomplete, `crashed` an uncaught exception. -/
inductive RunResult where
  | crashed
  | done (payload : Str) (single : Bool) (st : List (Option Str))
  | pending (st : List (Option Str))
  deriving DecidableEq

/-- Feed parsed dicts one at a time into the session state, starting from a
given slot array, stopping at the first completion or uncaught exception.
The payload of a multi-part completion is the join of the final array,
exactly as `read_qr_code` computes it after the break. -/
def runFrags : List SingleQrDict → List (Option Str) → RunResult
  | [], st => .pending st
  | d :: rest, st =>
    match absorb st d with
    | none => .crashed
    | some (.singleDone p, st2) => .done p true st2
    | some (.complete, st2) => .done ((optJoin st2).getD []) false st2
    | some (.progressed, st2) => runFrags rest st2
    | some (.alreadyFilled, st2) => runFrags rest st2

/-- One step of the scan loop seen from outside: the user presses escape, the
frame holds no decodable QR code, or the first decoded QR code of the frame
holds the given text. -/
inductive FrameEvent where
  | esc
  | noQr
  | qr (data : Str)
  deriving DecidableEq

/-- How a run of `read_qr_code` ends: a value returned to the caller, an
uncaught exception, or still looping when the scripted frames run out. -/
inductive ScanOutcome where
  | returned (p : Str)
  | crashed
  | running
  deriving DecidableEq

/-- Outcome of a run of `read_qr_code` together with the number of times
`camera.release()` was executed on the way to that outcome. -/
structure LoopResult where
  outcome : ScanOutcome
  releases : Nat
  deriving DecidableEq

/-- Model of the loop of `read_qr_code` (reader.py lines 125 to 186) for a
given parser and a script of frame events. The escape key breaks out of the
loop (line 131), after which the source releases the camera (line 177) and
only then joins the array (line 182), so a `TypeError` there happens after
the release. A malformed frame (`ValueError`) is caught and skipped
(line 140). The `y_int == 1` short circuit returns from inside the loop
(line 151) without ever reaching `camera.release()`, and an uncaught
exception from the accumulation logic also propagates without releasing. -/
def read_qr_code (parse : Str → Option SingleQrDict) :
    List FrameEvent → List (Option Str) → LoopResult
  | [], _ => ⟨.running, 0⟩
  | .esc :: _, st =>
    match optJoin st with
    | some p => ⟨.returned p, 1⟩
    | none => ⟨.crashed, 1⟩
  | .noQr :: rest, st => read_qr_code parse rest st
  | .qr d :: rest, st =>
    match parse d with
    | none => read_qr_code parse rest st
    | some dict =>
      match absorb st dict with
      | none => ⟨.crashed, 0⟩
      | some (.singleDone p, _) => ⟨.returned p, 0⟩
      | some (.complete, st2) =>
        match optJoin st2 with
        | some p => ⟨.returned p, 1⟩
        | none => ⟨.crashed, 1⟩
      | some (.progressed, st2) => read_qr_code parse rest st2
      | some (.alreadyFilled, st2) => read_qr_code parse rest st2

/-- A string with no space character splits into the single token that is the
whole string, for psbt the single-part branch of the parser. -/
lemma splitSpace_of_no_space (l : Str) (h : ' ' ∉ l) : splitSpace l = [l] := by
  induction l with
  | nil => rfl
  | cons c cs ih =>
    simp only [List.mem_cons, not_or] at h
    have hc : ¬ c = ' ' := fun hc => h.1 hc.symm
    rw [splitSpace, if_neg hc, ih h.2]

/-- An array with an unfilled slot fails the completion test. -/
lemma allFilled_eq_false_of_mem_none (st : List (Option Str)) (h : none ∈ st) :
    allFilled st = false := by
  induction st with
  | nil => simp at h
  | cons a rest ih =>
    rcases List.mem_cons.mp h with h1 | h2
    · simp [allFilled, ← h1]
    · simp only [allFilled, List.all_cons, Bool.and_eq_false_iff]
      exact Or.inr (ih h2)

/-- The join of a fully filled array succeeds. -/
lemma optJoin_of_allFilled (st : List (Option Str)) (h : allFilled st = true) :
    ∃ p, optJoin st = some p := by
  induction st with
  | nil => exact ⟨[], rfl⟩
  | cons a rest ih =>
    simp only [allFilled, List.all_cons, Bool.and_eq_true] at h
    rcases a with _ | s
    · simp at h
    · rcases ih h.2 with ⟨p, hp⟩
      exact ⟨s ++ p, by simp [optJoin, hp]⟩

/-- Inversion on a successful absorb step: either the fragment took the
`y_int == 1` short circuit and the state is untouched, or the fragment is
multi-part and the event is `complete` only with a nonempty, fully filled
resulting array. -/
lemma absorb_eq_some_cases (st st2 : List (Option Str)) (d : SingleQrDict)
    (ev : SessionEvent) (h : absorb st d = some (ev, st2)) :
    (d.y_int.getD 1 = 1 ∧ ev = .singleDone d.payload ∧ st2 = st) ∨
    (d.y_int.getD 1 ≠ 1 ∧
      ((ev = .complete ∧ allFilled st2 = true ∧ st2 ≠ []) ∨
        ev = .progressed ∨ ev = .alreadyFilled)) := by
  by_cases hy : d.y_int.getD 1 = 1
  · left
    unfold absorb at h
    rw [if_pos hy] at h
    simp only [Option.some.injEq, Prod.mk.injEq] at h
    exact ⟨hy, h.1.symm, h.2.symm⟩
  · right
    refine ⟨hy, ?_⟩
    unfold absorb at h
    rw [if_neg hy] at h
    rcases hx : d.x_int with _ | x
    · rw [hx] at h; simp at h
    · rw [hx] at h
      simp only [] at h
      rcases hj : pyIdx (ensureSlots st (d.y_int.getD 1)).length ((x : Int) - 1) with _ | j
      · rw [hj] at h; simp at h
      · rw [hj] at h
        simp only [] at h
        rcases hs : (ensureSlots st (d.y_int.getD 1))[j]? with _ | s
        · rw [hs] at h; simp at h
        · rw [hs] at h
          have hlen : 0 < (ensureSlots st (d.y_int.getD 1)).length := by
            by_contra hlen
            push_neg at hlen
            have hnone : (ensureSlots st (d.y_int.getD 1))[j]? = none := by
              apply List.getElem?_eq_none
              omega
            rw [hnone] at hs
            exact Option.noConfusion hs
          rcases s with _ | t
          · by_cases hc :
                allFilled ((ensureSlots st (d.y_int.getD 1)).set j (some d.payload)) = true
            · rw [if_pos hc] at h
              simp only [Option.some.injEq, Prod.mk.injEq] at h
              left
              refine ⟨h.1.symm, h.2 ▸ hc, ?_⟩
              apply List.ne_nil_of_length_pos
              rw [← h.2, List.length_set]
              exact hlen
            · rw [if_neg hc] at h
              simp only [Option.some.injEq, Prod.mk.injEq] at h
              exact Or.inr (Or.inl h.1.symm)
          · by_cases hc : allFilled (ensureSlots st (d.y_int.getD 1)) = true
            · rw [if_pos hc] at h
              simp only [Option.some.injEq, Prod.mk.injEq] at h
              left
              refine ⟨h.1.symm, h.2 ▸ hc, ?_⟩
              apply List.ne_nil_of_length_pos
              rw [← h.2]
              exact hlen
            · rw [if_neg hc] at h
              simp only [Option.some.injEq, Prod.mk.injEq] at h
              exact Or.inr (Or.inr h.1.symm)

/-- A run over multi-part fragments that reports a completion did fill every
slot: the completion flag is the multi-part one, the final array is nonempty
and fully filled, and the reported payload is its successful join. -/
lemma runFrags_done_multi :
    ∀ (fs : List SingleQrDict) (st st2 : List (Option Str)) (p : Str) (b : Bool),
      (∀ d ∈ fs, d.y_int.getD 1 ≠ 1) → runFrags fs st = .done p b st2 →
      b = false ∧ st2 ≠ [] ∧ allFilled st2 = true ∧ optJoin st2 = some p := by
  intro fs
  induction fs with
  | nil =>
    intro st st2 p b _ h
    simp [runFrags] at h
  | cons d rest ih =>
    intro st st2 p b hmulti h
    have hd : d.y_int.getD 1 ≠ 1 := hmulti d (List.mem_cons_self d rest)
    have hrest : ∀ f ∈ rest, f.y_int.getD 1 ≠ 1 :=
      fun f hf => hmulti f (List.mem_cons_of_mem d hf)
    rw [runFrags] at h
    rcases habs : absorb st d with _ | ⟨ev, st3⟩
    · rw [habs] at h; simp at h
    · rw [habs] at h
      rcases ev with p3 | _ | _ | _
      · rcases absorb_eq_some_cases st st3 d _ habs with ⟨hy, _, _⟩ | ⟨_, hcase⟩
        · exact absurd hy hd
        · rcases hcase with ⟨hev, _⟩ | hev | hev <;> simp at hev
      · exact ih st3 st2 p b hrest h
      · exact ih st3 st2 p b hrest h
      · rcases absorb_eq_some_cases st st3 d _ habs with ⟨hy, _, _⟩ | ⟨_, hcase⟩
        · exact absurd hy hd
        · rcases hcase with ⟨_, hfill, hne⟩ | hev | hev
          · rcases optJoin_of_allFilled st3 hfill with ⟨q, hq⟩
            simp only [RunResult.done.injEq] at h
            rcases h with ⟨hp, hb, hst⟩
            subst hb
            subst hst
            refine ⟨rfl, hne, hfill, ?_⟩
            rw [hq] at hp ⊢
            rw [← hp]
            simp
          · simp at hev
          · simp at hev

/-- C1: feeding a session with declared part count 3 the fragments
`(1, "A")`, `(2, "B")`, `(3, "C")` in any of the six arrival orders reaches a
multi-part completion whose payload is `"ABC"`, the slot contents joined in
slot-index order with no separator, independent of arrival order. -/
theorem c1_three_parts_any_order :
    runFrags [⟨some 1, some 3, "A".data⟩, ⟨some 2, some 3, "B".data⟩,
        ⟨some 3, some 3, "C".data⟩] [] =
      .done "ABC".data false [some "A".data, some "B".data, some "C".data] ∧
    runFrags [⟨some 1, some 3, "A".data⟩, ⟨some 3, some 3, "C".data⟩,
        ⟨some 2, some 3, "B".data⟩] [] =
      .done "ABC".data false [some "A".data, some "B".data, some "C".data] ∧
    runFrags [⟨some 2, some 3, "B".data⟩, ⟨some 1, some 3, "A".data⟩,
        ⟨some 3, some 3, "C".data⟩] [] =
      .done "ABC".data false [some "A".data, some "B".data, some "C".data] ∧
    runFrags [⟨some 2, some 3, "B".data⟩, ⟨some 3, some 3, "C".data⟩,
        ⟨some 1, some 3, "A".data⟩] [] =
      .done "ABC".data false [some "A".data, some "B".data, some "C".data] ∧
    runFrags [⟨some 3, some 3, "C".data⟩, ⟨some 1, some 3, "A".data⟩,
        ⟨some 2, some 3, "B".data⟩] [] =
      .done "ABC".data false [some "A".data, some "B".data, some "C".data] ∧
    runFrags [⟨some 3, some 3, "C".data⟩, ⟨some 2, some 3, "B".data⟩,
        ⟨some 1, some 3, "A".data⟩] [] =
      .done "ABC".data false [some "A".data, some "B".data, some "C".data] := by
  decide

/-- C2, counterexample: the no-space input `"p2of3"` is parsed by the
account-map parser as a multi-part fragment with part index 2, part count 3
and empty text, not as the single-part fragment `(1, 1, "p2of3")` the claim
requires, whatever the external validator would answer (it is not consulted
in this branch). -/
theorem c2_counterexample :
    parse_specter_desktop_accountmap (fun _ => true) "p2of3".data =
      some ⟨some 2, some 3, []⟩ ∧
    parse_specter_desktop_accountmap (fun _ => false) "p2of3".data =
      some ⟨some 2, some 3, []⟩ ∧
    some (⟨some 2, some 3, []⟩ : SingleQrDict) ≠
      some ⟨some 1, some 1, "p2of3".data⟩ := by
  decide

/-- C2, amended: every no-space input parses as the unchanged single-part
fragment `(1, 1, input)` for the psbt kind; for the account-map kind the same
holds only when the header regex does not match a prefix of the input, in
which case the input is returned whole, with no `x_int` or `y_int` keys,
exactly when the validator accepts it — the parse succeeds with the whole
input if the validator accepts, and fails if the validator rejects — and such
a keyless dict is treated by the loop as a completed single-part payload. -/
theorem c2_no_space_single_part :
    (∀ raw : Str, ' ' ∉ raw →
      parse_specter_desktop_psbt raw = some ⟨some 1, some 1, raw⟩) ∧
    (∀ (v : Str → Bool) (raw : Str), ' ' ∉ raw → matchXofY raw = none →
      v raw = true →
      parse_specter_desktop_accountmap v raw = some ⟨none, none, raw⟩) ∧
    (∀ (v : Str → Bool) (raw : Str), ' ' ∉ raw → matchXofY raw = none →
      v raw = false →
      parse_specter_desktop_accountmap v raw = none) ∧
    (∀ (st : List (Option Str)) (t : Str),
      absorb st ⟨none, none, t⟩ = some (.singleDone t, st)) := by
  refine ⟨?_, ?_, ?_, ?_⟩
  · intro raw h
    rw [parse_specter_desktop_psbt, splitSpace_of_no_space raw h]
  · intro v raw h hm hv
    rw [parse_specter_desktop_accountmap, splitSpace_of_no_space raw h]
    simp [hm, hv]
  · intro v raw h hm hv
    rw [parse_specter_desktop_accountmap, splitSpace_of_no_space raw h]
    simp [hm, hv]
  · intro st t
    simp [absorb]

/-- C2, witness for the amended statement at concrete inputs, with both an
accepting and a rejecting validator on the same no-space input. -/
theorem c2_no_space_single_part_witness :
    parse_specter_desktop_psbt "abc".data = some ⟨some 1, some 1, "abc".data⟩ ∧
    parse_specter_desktop_accountmap (fun _ => true) "abc".data =
      some ⟨none, none, "abc".data⟩ ∧
    parse_specter_desktop_accountmap (fun _ => false) "abc".data = none ∧
    absorb [] ⟨none, none, "abc".data⟩ = some (.singleDone "abc".data, []) :=
  ⟨c2_no_space_single_part.1 _ (by decide),
   c2_no_space_single_part.2.1 _ _ (by decide) (by decide) rfl,
   c2_no_space_single_part.2.2.1 _ _ (by decide) (by decide) rfl,
   c2_no_space_single_part.2.2.2 _ _⟩

/-- C3, counterexample: for the psbt kind the single-token inputs `"pXofY"`
and the empty string are parsed as single-part fragments, not rejected, and
the two-token input `"p2of3X A"`, whose first token is not of the form
`p<digits>of<digits>`, is accepted because the regex match is not anchored at
the end of the token. -/
theorem c3_counterexample :
    parse_specter_desktop_psbt "pXofY".data = some ⟨some 1, some 1, "pXofY".data⟩ ∧
    parse_specter_desktop_psbt [] = some ⟨some 1, some 1, []⟩ ∧
    parse_specter_desktop_psbt "p2of3X A".data = some ⟨some 2, some 3, "A".data⟩ := by
  decide

/-- C3, amended: a two-token input whose first token does not even begin with
a `p<digits>of<digits>` prefix with both digit groups nonempty fails for the
psbt kind, and for the account-map kind fails whenever the validator rejects
the raw string; single-token inputs such as `"pXofY"` or the empty string are
instead parsed as single-part payloads. -/
theorem c3_bad_header_rejected :
    (∀ raw t0 t1 : Str, splitSpace raw = [t0, t1] → headerNums t0 = none →
      parse_specter_desktop_psbt raw = none) ∧
    (∀ (v : Str → Bool) (raw t0 : Str) (rest : List Str),
      splitSpace raw = t0 :: rest → headerNums t0 = none → v raw = false →
      parse_specter_desktop_accountmap v raw = none) := by
  constructor
  · intro raw t0 t1 hsplit hnone
    rw [parse_specter_desktop_psbt, hsplit]
    simp [hnone]
  · intro v raw t0 rest hsplit hnone hv
    rw [parse_specter_desktop_accountmap, hsplit]
    rcases hm : matchXofY t0 with _ | ⟨g1, g2⟩
    · simp [hm, hv]
    · simp only [headerNums, hm] at hnone
      rcases h1 : pyIntOfDigits g1 with _ | x
      · simp [hm, h1]
      · rcases h2 : pyIntOfDigits g2 with _ | y
        · simp [hm, h1, h2]
        · rw [h1, h2] at hnone
          simp at hnone

/-- C3, witness for the amended statement at the spec's example headers. -/
theorem c3_bad_header_rejected_witness :
    parse_specter_desktop_psbt "pXofY x".data = none ∧
    parse_specter_desktop_psbt "p2of x".data = none ∧
    parse_specter_desktop_psbt "2of3 x".data = none ∧
    parse_specter_desktop_accountmap (fun _ => false) "2of3 x".data = none :=
  ⟨c3_bad_header_rejected.1 "pXofY x".data "pXofY".data "x".data
      (by decide) (by decide),
   c3_bad_header_rejected.1 "p2of x".data "p2of".data "x".data
      (by decide) (by decide),
   c3_bad_header_rejected.1 "2of3 x".data "2of3".data "x".data
      (by decide) (by decide),
   c3_bad_header_rejected.2 (fun _ => false) "2of3 x".data "2of3".data
      ["x".data] (by decide) (by decide) rfl⟩

/-- C4: absorbing a multi-part fragment whose slot is already filled, in a
session that is not yet complete, reports the duplicate and returns the slot
array entirely unchanged: the stored text is not overwritten and no
completion is triggered. -/
theorem c4_duplicate_leaves_state (st : List (Option Str)) (x y : Nat)
    (t s : Str) (j : Nat) (hy : y ≠ 1)
    (hj : pyIdx st.length ((x : Int) - 1) = some j)
    (hslot : st[j]? = some (some s)) (hmiss : none ∈ st) :
    absorb st ⟨some x, some y, t⟩ = some (.alreadyFilled, st) := by
  have hne : st.isEmpty = false := by
    cases st with
    | nil => simp at hslot
    | cons a l => rfl
  have hfill := allFilled_eq_false_of_mem_none st hmiss
  simp [absorb, ensureSlots, hne, hy, hj, hslot, hfill]

/-- C4, witness: a duplicate of slot 1 in a half-filled two-slot session. -/
theorem c4_duplicate_leaves_state_witness :
    absorb [some "A".data, none] ⟨some 1, some 2, "Z".data⟩ =
      some (.alreadyFilled, [some "A".data, none]) :=
  c4_duplicate_leaves_state [some "A".data, none] 1 2 "Z".data "A".data 0
    (by decide) (by decide) (by decide) (by decide)

/-- C5, counterexample: in a session sized 3, absorbing a later fragment
whose declared part count is 5 is not ignored: the event is `progressed` but
the fragment's text is written into slot 2, so the session state changes. -/
theorem c5_counterexample :
    absorb [some "A".data, none, none] ⟨some 2, some 5, "B".data⟩ =
      some (.progressed, [some "A".data, some "B".data, none]) ∧
    [some "A".data, some "B".data, none] ≠ [some "A".data, none, none] := by
  decide

/-- C5, amended: once the slot array is allocated, a later multi-part
fragment's part count is disregarded as a value rather than checked: the
absorb step gives the same result for any two part counts other than 1, so a
mismatched fragment is processed by its part index against the originally
sized array exactly like a matching one. -/
theorem c5_mismatch_count_disregarded (st : List (Option Str)) (x y1 y2 : Nat)
    (t : Str) (hst : st ≠ []) (h1 : y1 ≠ 1) (h2 : y2 ≠ 1) :
    absorb st ⟨some x, some y1, t⟩ = absorb st ⟨some x, some y2, t⟩ := by
  have hne : st.isEmpty = false := by
    cases st with
    | nil => exact absurd rfl hst
    | cons a l => rfl
  simp [absorb, ensureSlots, hne, h1, h2]

/-- C5, witness: part counts 5 and 3 act identically on a session sized 3. -/
theorem c5_mismatch_count_disregarded_witness :
    absorb [some "A".data, none, none] ⟨some 2, some 5, "B".data⟩ =
      absorb [some "A".data, none, none] ⟨some 2, some 3, "B".data⟩ :=
  c5_mismatch_count_disregarded [some "A".data, none, none] 2 5 3 "B".data
    (by decide) (by decide) (by decide)

/-- C6: a session fed only multi-part fragments reports a completion only
when every slot of its nonempty array has been filled, and the payload is
then the join of the array; contrapositively, a session whose slots never
all become filled never emits a completion. -/
theorem c6_complete_needs_all_filled (fs : List SingleQrDict) (p : Str)
    (b : Bool) (st2 : List (Option Str))
    (hmulti : ∀ d ∈ fs, d.y_int.getD 1 ≠ 1)
    (h : runFrags fs [] = .done p b st2) :
    b = false ∧ st2 ≠ [] ∧ allFilled st2 = true ∧ optJoin st2 = some p :=
  runFrags_done_multi fs [] st2 p b hmulti h

/-- C6, witness: a completed two-part session. -/
theorem c6_complete_needs_all_filled_witness :
    false = false ∧ ([some "A".data, some "B".data] : List (Option Str)) ≠ [] ∧
      allFilled [some "A".data, some "B".data] = true ∧
      optJoin [some "A".data, some "B".data] = some "AB".data :=
  c6_complete_needs_all_filled
    [⟨some 1, some 2, "A".data⟩, ⟨some 2, some 2, "B".data⟩] "AB".data false
    [some "A".data, some "B".data] (by decide) (by decide)

/-- C7: cancelling after a partial multi-part capture does not return the
partial payload: the loop breaks and releases the camera, but the join of the
array then raises `TypeError` on the unfilled `None` slots, so the function
crashes; only a cancellation with no multi-part fragment absorbed returns
(the empty string). -/
theorem c7_cancel_on_partial_state_crashes :
    read_qr_code parse_specter_desktop_psbt [.qr "p1of3 A".data, .esc] [] =
      ⟨.crashed, 1⟩ ∧
    read_qr_code parse_specter_desktop_psbt [.esc] [] = ⟨.returned [], 1⟩ := by
  decide

/-- C8: the single-part short circuit returns from inside the loop without
ever executing `camera.release()`, so that exit path releases the camera zero
times, while the multi-part completion path releases it exactly once. -/
theorem c8_single_part_return_skips_release :
    read_qr_code parse_specter_desktop_psbt [.qr "ABC".data] [] =
      ⟨.returned "ABC".data, 0⟩ ∧
    read_qr_code parse_specter_desktop_psbt
        [.qr "p1of2 A".data, .qr "p2of2 B".data] [] =
      ⟨.returned "AB".data, 1⟩ := by
  decide

/-- C9: with a valid multi-part header, an input of three or more
space-separated tokens is rejected by the psbt parser, while the account-map
parser accepts any number of tokens after the header and rejoins them with
single spaces as the fragment text, never consulting the validator. -/
theorem c9_token_count_asymmetry :
    (∀ (raw t0 t1 t2 : Str) (rest : List Str) (x y : Nat),
      splitSpace raw = t0 :: t1 :: t2 :: rest → headerNums t0 = some (x, y) →
      parse_specter_desktop_psbt raw = none) ∧
    (∀ (v : Str → Bool) (raw t0 : Str) (rest : List Str) (g1 g2 : Str) (x y : Nat),
      splitSpace raw = t0 :: rest → matchXofY t0 = some (g1, g2) →
      pyIntOfDigits g1 = some x → pyIntOfDigits g2 = some y →
      parse_specter_desktop_accountmap v raw = some ⟨some x, some y, joinSpace rest⟩) := by
  constructor
  · intro raw t0 t1 t2 rest x y hsplit _
    rw [parse_specter_desktop_psbt, hsplit]
  · intro v raw t0 rest g1 g2 x y hsplit hm h1 h2
    rw [parse_specter_desktop_accountmap, hsplit]
    simp [hm, h1, h2]

/-- C9, witness: the same three-token input for both kinds. -/
theorem c9_token_count_asymmetry_witness :
    parse_specter_desktop_psbt "p1of2 A B".data = none ∧
    parse_specter_desktop_accountmap (fun _ => false) "p1of2 A B".data =
      some ⟨some 1, some 2, "A B".data⟩ :=
  ⟨c9_token_count_asymmetry.1 "p1of2 A B".data "p1of2".data "A".data "B".data
      [] 1 2 (by decide) (by decide),
   c9_token_count_asymmetry.2 (fun _ => false) "p1of2 A B".data "p1of2".data
      ["A".data, "B".data] "1".data "2".data 1 2 (by decide) (by decide)
      (by decide) (by decide)⟩

/-- C10: the part index 0 is accepted by both parsers from the header
`p0of3`, and absorbing such a fragment into a fresh session sized 3 resolves
the Python index `-1` to the last slot and writes the text there, so a part
index below 1 is rejected neither at parse time nor at absorb time. -/
theorem c10_part_index_zero_wraps_to_last_slot :
    parse_specter_desktop_psbt "p0of3 X".data = some ⟨some 0, some 3, "X".data⟩ ∧
    parse_specter_desktop_accountmap (fun _ => false) "p0of3 X".data =
      some ⟨some 0, some 3, "X".data⟩ ∧
    absorb [] ⟨some 0, some 3, "X".data⟩ =
      some (.progressed, [none, none, some "X".data]) := by
  decide

